import Mathlib

/-!
Verification of the hdrv image renderer core (`src/view/ImageRenderer.cpp`).

The embedding models:
* the image data model (width, height, channel count) with identity-keyed
  documents (a `shared_ptr<Image>` identity is a natural number handle);
* the texture cache `textures_`, a `std::map<shared_ptr<Image>,
  unique_ptr<QOpenGLTexture>>`, as an association list from image identity to
  `Option Texture` (`none` models a null `unique_ptr`, as produced transiently
  by `operator[]` default-insertion);
* `updateImages` (erase loop + creation loop), `setCurrent`, and the stateful
  part of `paint` (lazy shader-program creation, `textures_[current_]` access);
* the pure transform math (`texturePosition`, `textureScale`, the gamma
  uniform) and the GLSL vertex/fragment stages over `ℚ`, with the GLSL `pow`
  and texture sampling kept abstract as function parameters.
-/

namespace Hdrv

/-- Image: an immutable decoded raster with width, height and channel count.
Pixel data is irrelevant to the verified properties and omitted. -/
structure Image where
  width : Nat
  height : Nat
  channels : Nat
deriving DecidableEq, Repr

/-- `QOpenGLTexture::TextureFormat` values used by the renderer. -/
inductive TextureFormat where
  | RGBFormat
  | RGBAFormat
deriving DecidableEq, Repr

/-- `QOpenGLTexture::PixelFormat` values used by the renderer. -/
inductive PixelFormat where
  | RGB
  | RGBA
deriving DecidableEq, Repr

/-- `format(image)`: RGB texture format iff the image has exactly 3 channels. -/
def format (image : Image) : TextureFormat :=
  if image.channels = 3 then TextureFormat.RGBFormat else TextureFormat.RGBAFormat

/-- `pixelFormat(image)`: RGB pixel format iff the image has exactly 3 channels. -/
def pixelFormat (image : Image) : PixelFormat :=
  if image.channels = 3 then PixelFormat.RGB else PixelFormat.RGBA

/-- A GPU texture object: an allocation identity plus the size and format it
was created with by `createTexture`. -/
structure Texture where
  id : Nat
  width : Nat
  height : Nat
  fmt : TextureFormat
  pfmt : PixelFormat
deriving DecidableEq, Repr

/-- `createTexture(image)`: allocates a fresh texture sized and formatted to
match the image; `freshId` is the allocation identity of the new GPU object. -/
def createTexture (image : Image) (freshId : Nat) : Texture :=
  { id := freshId
    width := image.width
    height := image.height
    fmt := format image
    pfmt := pixelFormat image }

/-- Identity of a `shared_ptr<Image>` (address equality). -/
abbrev ImageId := Nat

/-- An `ImageDocument *`: exposes `image()`, a `shared_ptr<Image>` whose
identity is `imageId` and whose pointee is `image`. -/
structure ImageDocument where
  imageId : ImageId
  image : Image
deriving DecidableEq, Repr

/-- The backing map of the texture cache `textures_`: keys are image
identities, values are `unique_ptr<QOpenGLTexture>` (`none` = null). -/
abbrev TextureMap := List (ImageId × Option Texture)

/-- Find the value stored under key `k` (the first matching entry);
`none` means the key is absent. -/
def TextureMap.lookup (m : TextureMap) (k : ImageId) : Option (Option Texture) :=
  match m with
  | [] => none
  | (k', v) :: rest => if k' = k then some v else TextureMap.lookup rest k

/-- Replace the value stored under key `k` (the first matching entry). -/
def TextureMap.setFirst (m : TextureMap) (k : ImageId) (v : Option Texture) : TextureMap :=
  match m with
  | [] => []
  | (k', v') :: rest =>
    if k' = k then (k', v) :: rest else (k', v') :: TextureMap.setFirst rest k v

/-- The key set of the map (with multiplicity; claims use it as a set). -/
def TextureMap.keys (m : TextureMap) : List ImageId :=
  m.map Prod.fst

/-- State of an `ImageRenderer`: the lazily created shader program (with a
creation counter counting compilations), the texture cache, the allocation
counter for fresh texture identities, and the current image. -/
structure RendererState where
  program : Option Nat
  programsCreated : Nat
  textures : TextureMap
  nextTexId : Nat
  current : ImageId
deriving DecidableEq, Repr

/-- `ImageRenderer::setCurrent`. -/
def setCurrent (st : RendererState) (image : ImageId) : RendererState :=
  { st with current := image }

/-- First loop of `updateImages`: erase textures for images that no longer
exist, i.e. keep exactly the entries whose key is some document's image. -/
def eraseStale (m : TextureMap) (images : List ImageDocument) : TextureMap :=
  m.filter fun e => images.any fun doc => doc.imageId == e.1

/-- Body of the second loop of `updateImages` for one document:
`auto & tex = textures_[doc->image()]; if (!tex) tex = createTexture(*doc->image());`.
`operator[]` default-inserts a null entry when the key is absent; a null
entry (absent or pre-existing) is filled with a freshly created texture. -/
def createForDoc (st : RendererState) (doc : ImageDocument) : RendererState :=
  match st.textures.lookup doc.imageId with
  | some (some _) => st
  | some none =>
    { st with
      textures := st.textures.setFirst doc.imageId (some (createTexture doc.image st.nextTexId))
      nextTexId := st.nextTexId + 1 }
  | none =>
    { st with
      textures := st.textures ++ [(doc.imageId, some (createTexture doc.image st.nextTexId))]
      nextTexId := st.nextTexId + 1 }

/-- `ImageRenderer::updateImages`: erase stale entries, then create textures
for new images in document order. -/
def updateImages (st : RendererState) (images : List ImageDocument) : RendererState :=
  images.foldl createForDoc { st with textures := eraseStale st.textures images }

/-- The map access `textures_[current_]` performed by `paint`: `operator[]`
default-inserts a null entry when the key is absent. Returns the updated map
and the entry's value; a `none` result models the dereference of a missing
(null) texture, which is undefined behavior in the source. -/
def paintAccess (m : TextureMap) (k : ImageId) : TextureMap × Option Texture :=
  match m.lookup k with
  | some v => (m, v)
  | none => (m ++ [(k, none)], none)

/-- The state effect of one `ImageRenderer::paint` call: lazily create the
shader program on first use (`if (!program_) program_ = createProgram();`),
then access `textures_[current_]`. The second component is the texture the
call dereferences (`none` = missing or null entry). -/
def paintStep (st : RendererState) : RendererState × Option Texture :=
  let st1 :=
    if st.program.isSome then st
    else { st with program := some st.programsCreated, programsCreated := st.programsCreated + 1 }
  let acc := paintAccess st1.textures st1.current
  ({ st1 with textures := acc.1 }, acc.2)

/-- `n` consecutive `paint` calls. -/
def paintN (st : RendererState) : Nat → RendererState
  | 0 => st
  | n + 1 => paintN (paintStep st).1 n

/-- Display settings (`settings_`): pan offset, scale factor, gamma. -/
structure Settings where
  position : ℚ × ℚ
  scale : ℚ
  gamma : ℚ

/-- `texturePosition(regionSize, imageSize, imagePosition)` from the source:
`offset = (regionSize - imageSize) / 2;`
`return (offset + QVector2D(-imagePosition.x(), imagePosition.y())) / regionSize;`
(componentwise `QVector2D` arithmetic over exact rationals). -/
def texturePosition (regionSize imageSize imagePosition : ℚ × ℚ) : ℚ × ℚ :=
  let offset := ((regionSize.1 - imageSize.1) / 2, (regionSize.2 - imageSize.2) / 2)
  ((offset.1 + -imagePosition.1) / regionSize.1, (offset.2 + imagePosition.2) / regionSize.2)

/-- `textureScale(regionSize, imageSize) = imageSize / regionSize`
(componentwise). -/
def textureScale (regionSize imageSize : ℚ × ℚ) : ℚ × ℚ :=
  (imageSize.1 / regionSize.1, imageSize.2 / regionSize.2)

/-- The three transform uniforms a `paint` call feeds the shader. -/
structure Uniforms where
  position : ℚ × ℚ
  scale : ℚ × ℚ
  gamma : ℚ
deriving DecidableEq, Repr

/-- The uniform values computed by `paint` (lines 115-123 of the source):
`imageSize = (width * settings_.scale, height * settings_.scale)`,
`position = texturePosition(regionSize, imageSize, settings_.position)`,
`scale = textureScale(regionSize, imageSize)`, `gamma = 1.0f / settings_.gamma`. -/
def paintUniforms (regionSize : ℚ × ℚ) (image : Image) (settings : Settings) : Uniforms :=
  let imageSize := ((image.width : ℚ) * settings.scale, (image.height : ℚ) * settings.scale)
  { position := texturePosition regionSize imageSize settings.position
    scale := textureScale regionSize imageSize
    gamma := 1 / settings.gamma }

/-- An RGBA texel / fragment color. -/
structure RGBA where
  r : ℚ
  g : ℚ
  b : ℚ
  a : ℚ
deriving DecidableEq, Repr

/-- The vertex stage of `vertexSource`: `coords = vertices * 0.5 + 0.5`. -/
def vertexCoords (vertices : ℚ × ℚ) : ℚ × ℚ :=
  (vertices.1 * (1 / 2) + 1 / 2, vertices.2 * (1 / 2) + 1 / 2)

/-- `vertexData`: the four triangle-strip vertices of the full-screen quad. -/
def vertexData : List (ℚ × ℚ) :=
  [(-1, -1), (1, -1), (-1, 1), (1, 1)]

/-- The fragment stage of `fragmentSource`:
`texel = texture2D(tex, (coords - position) / scale);`
`color = pow(texel.xyz, vec3(gamma));`
`gl_FragColor = vec4(color, texel.w);`
GLSL `pow` and the bound texture's sampler are abstract parameters. -/
def fragmentMain (pw : ℚ → ℚ → ℚ) (sample : ℚ × ℚ → RGBA)
    (position scale : ℚ × ℚ) (gamma : ℚ) (coords : ℚ × ℚ) : RGBA :=
  let texel := sample ((coords.1 - position.1) / scale.1, (coords.2 - position.2) / scale.2)
  let color := (pw texel.r gamma, pw texel.g gamma, pw texel.b gamma)
  { r := color.1, g := color.2.1, b := color.2.2, a := texel.a }

/-!
Definitions written from the specification's words, to be compared with the
source-derived definitions above (refinement claims C4, C5, C9).
-/

/-- Spec formula: `texturePosition = ((regionSize - imageSize)/2 + (-pan.x, pan.y)) / regionSize`. -/
def specTexturePosition (regionSize imageSize pan : ℚ × ℚ) : ℚ × ℚ :=
  (((regionSize.1 - imageSize.1) / 2 + -pan.1) / regionSize.1,
    ((regionSize.2 - imageSize.2) / 2 + pan.2) / regionSize.2)

/-- Spec formula: `textureScale = imageSize / regionSize` componentwise. -/
def specTextureScale (regionSize imageSize : ℚ × ℚ) : ℚ × ℚ :=
  (imageSize.1 / regionSize.1, imageSize.2 / regionSize.2)

/-- Spec description of the fragment stage: sample the bound texture at
`(coords - position) / scale`, raise the sampled RGB channels channel-wise to
the power of the gamma uniform, leave alpha untouched, output the result. -/
def specFragmentOutput (pw : ℚ → ℚ → ℚ) (sample : ℚ × ℚ → RGBA)
    (position scale : ℚ × ℚ) (gamma : ℚ) (coords : ℚ × ℚ) : RGBA :=
  let sampledAt := ((coords.1 - position.1) / scale.1, (coords.2 - position.2) / scale.2)
  { r := pw (sample sampledAt).r gamma
    g := pw (sample sampledAt).g gamma
    b := pw (sample sampledAt).b gamma
    a := (sample sampledAt).a }

/-- Spec description of the vertex stage's texture coordinates: the affine
remap taking clip-space `[-1, 1]` to the unit interval `[0, 1]`. -/
def specVertexCoords (vertices : ℚ × ℚ) : ℚ × ℚ :=
  ((vertices.1 + 1) / 2, (vertices.2 + 1) / 2)

/-- `k` is the image identity referenced by some document in `images`. -/
def referenced (images : List ImageDocument) (k : ImageId) : Prop :=
  ∃ d ∈ images, d.imageId = k

/-! Helper lemmas about the texture map and the cache operations. -/

theorem any_imageId_iff (images : List ImageDocument) (k : ImageId) :
    (images.any fun doc => doc.imageId == k) = true ↔ referenced images k := by
  simp [referenced, List.any_eq_true]

theorem TextureMap.mem_keys_eraseStale (m : TextureMap) (images : List ImageDocument)
    (k : ImageId) :
    k ∈ (eraseStale m images).keys ↔ k ∈ m.keys ∧ referenced images k := by
  simp only [eraseStale, TextureMap.keys, List.mem_map, List.mem_filter]
  constructor
  · rintro ⟨e, ⟨hem, hany⟩, rfl⟩
    exact ⟨⟨e, hem, rfl⟩, (any_imageId_iff _ _).1 hany⟩
  · rintro ⟨⟨e, hem, rfl⟩, href⟩
    exact ⟨e, ⟨hem, (any_imageId_iff _ _).2 href⟩, rfl⟩

theorem TextureMap.keys_setFirst (m : TextureMap) (k : ImageId) (v : Option Texture) :
    (m.setFirst k v).keys = m.keys := by
  induction m with
  | nil => rfl
  | cons e rest ih =>
    obtain ⟨k', v'⟩ := e
    by_cases h : k' = k
    · simp [TextureMap.setFirst, TextureMap.keys, h]
    · simp only [TextureMap.setFirst, h, if_false]
      show k' :: TextureMap.keys (TextureMap.setFirst rest k v) = k' :: TextureMap.keys rest
      rw [ih]

theorem TextureMap.lookup_setFirst_self (m : TextureMap) (k : ImageId) (v w : Option Texture)
    (h : m.lookup k = some w) : (m.setFirst k v).lookup k = some v := by
  induction m with
  | nil => simp [TextureMap.lookup] at h
  | cons e rest ih =>
    obtain ⟨k', v'⟩ := e
    by_cases hk : k' = k
    · simp [TextureMap.setFirst, TextureMap.lookup, hk]
    · simp only [TextureMap.setFirst, TextureMap.lookup, hk, if_false] at h ⊢
      exact ih h

theorem TextureMap.lookup_setFirst_ne (m : TextureMap) (j k : ImageId) (v : Option Texture)
    (h : j ≠ k) : (m.setFirst j v).lookup k = m.lookup k := by
  induction m with
  | nil => rfl
  | cons e rest ih =>
    obtain ⟨k', v'⟩ := e
    by_cases hj : k' = j
    · subst hj
      simp [TextureMap.setFirst, TextureMap.lookup, h]
    · simp only [TextureMap.setFirst, TextureMap.lookup, hj, if_false]
      by_cases hk : k' = k <;> simp [hk, ih]

theorem TextureMap.lookup_append_left (m l : TextureMap) (k : ImageId) (w : Option Texture)
    (h : m.lookup k = some w) : (m ++ l).lookup k = some w := by
  induction m with
  | nil => simp [TextureMap.lookup] at h
  | cons e rest ih =>
    obtain ⟨k', v'⟩ := e
    by_cases hk : k' = k
    · simpa [TextureMap.lookup, hk] using h
    · simp only [List.cons_append, TextureMap.lookup, hk, if_false] at h ⊢
      exact ih h

theorem TextureMap.lookup_append_right (m : TextureMap) (j k : ImageId) (v : Option Texture)
    (h : m.lookup k = none) :
    (m ++ [(j, v)]).lookup k = if j = k then some v else none := by
  induction m with
  | nil => rfl
  | cons e rest ih =>
    obtain ⟨k', v'⟩ := e
    by_cases hk : k' = k
    · simp [TextureMap.lookup, hk] at h
    · simp only [List.cons_append, TextureMap.lookup, hk, if_false] at h ⊢
      exact ih h

theorem TextureMap.lookup_eq_none_iff (m : TextureMap) (k : ImageId) :
    m.lookup k = none ↔ k ∉ m.keys := by
  induction m with
  | nil => simp [TextureMap.lookup, TextureMap.keys]
  | cons e rest ih =>
    obtain ⟨k', v'⟩ := e
    by_cases h : k' = k
    · subst h
      simp [TextureMap.lookup, TextureMap.keys]
    · constructor
      · intro hn
        simp only [TextureMap.lookup, h, if_false] at hn
        simp only [TextureMap.keys, List.map_cons, List.mem_cons, not_or]
        exact ⟨fun hk => h hk.symm, ih.1 hn⟩
      · intro hn
        simp only [TextureMap.keys, List.map_cons, List.mem_cons, not_or] at hn
        simp only [TextureMap.lookup, h, if_false]
        exact ih.2 hn.2

theorem lookup_mem_keys (m : TextureMap) (k : ImageId) (w : Option Texture)
    (h : m.lookup k = some w) : k ∈ m.keys := by
  by_contra hk
  rw [(TextureMap.lookup_eq_none_iff m k).2 hk] at h
  cases h

theorem createForDoc_lookup_some (st : RendererState) (d : ImageDocument) (k : ImageId)
    (t : Texture) (h : st.textures.lookup k = some (some t)) :
    (createForDoc st d).textures.lookup k = some (some t) := by
  cases hd : st.textures.lookup d.imageId with
  | none =>
    simp only [createForDoc, hd]
    exact TextureMap.lookup_append_left _ _ _ _ h
  | some v =>
    cases v with
    | none =>
      simp only [createForDoc, hd]
      have hne : d.imageId ≠ k := by
        intro he
        rw [he, h] at hd
        cases hd
      rw [TextureMap.lookup_setFirst_ne _ _ _ _ hne]
      exact h
    | some t' => simpa [createForDoc, hd] using h

theorem createForDoc_lookup_self (st : RendererState) (d : ImageDocument) :
    ∃ t, (createForDoc st d).textures.lookup d.imageId = some (some t) := by
  cases hd : st.textures.lookup d.imageId with
  | none =>
    refine ⟨createTexture d.image st.nextTexId, ?_⟩
    simp only [createForDoc, hd]
    rw [TextureMap.lookup_append_right _ _ _ _ hd]
    simp
  | some v =>
    cases v with
    | none =>
      refine ⟨createTexture d.image st.nextTexId, ?_⟩
      simp only [createForDoc, hd]
      exact TextureMap.lookup_setFirst_self _ _ _ _ hd
    | some t =>
      refine ⟨t, ?_⟩
      simp only [createForDoc, hd]

theorem foldl_createForDoc_lookup_some (docs : List ImageDocument) (st : RendererState)
    (k : ImageId) (t : Texture) (h : st.textures.lookup k = some (some t)) :
    (docs.foldl createForDoc st).textures.lookup k = some (some t) := by
  induction docs generalizing st with
  | nil => simpa using h
  | cons d rest ih =>
    rw [List.foldl_cons]
    exact ih _ (createForDoc_lookup_some st d k t h)

theorem foldl_createForDoc_lookup_mem (docs : List ImageDocument) (st : RendererState)
    (d : ImageDocument) (hd : d ∈ docs) :
    ∃ t, (docs.foldl createForDoc st).textures.lookup d.imageId = some (some t) := by
  induction docs generalizing st with
  | nil => cases hd
  | cons d0 rest ih =>
    rw [List.foldl_cons]
    rcases List.mem_cons.1 hd with h | h
    · subst h
      obtain ⟨t, ht⟩ := createForDoc_lookup_self st d
      exact ⟨t, foldl_createForDoc_lookup_some rest _ _ t ht⟩
    · exact ih _ h

theorem updateImages_lookup_mem (st : RendererState) (docs : List ImageDocument)
    (d : ImageDocument) (hd : d ∈ docs) :
    ∃ t, (updateImages st docs).textures.lookup d.imageId = some (some t) :=
  foldl_createForDoc_lookup_mem docs _ d hd

theorem mem_keys_createForDoc (st : RendererState) (d : ImageDocument) (k : ImageId) :
    k ∈ (createForDoc st d).textures.keys ↔ k ∈ st.textures.keys ∨ k = d.imageId := by
  cases hd : st.textures.lookup d.imageId with
  | none =>
    simp only [createForDoc, hd, TextureMap.keys, List.map_append, List.mem_append,
      List.map_cons, List.map_nil, List.mem_cons, List.not_mem_nil, or_false]
  | some v =>
    have hmem : d.imageId ∈ st.textures.keys := lookup_mem_keys _ _ _ hd
    have hiff : k ∈ st.textures.keys ∨ k = d.imageId ↔ k ∈ st.textures.keys := by
      constructor
      · rintro (h | rfl)
        · exact h
        · exact hmem
      · exact Or.inl
    cases v with
    | none =>
      simp only [createForDoc, hd]
      show k ∈ TextureMap.keys (TextureMap.setFirst st.textures d.imageId _) ↔ _
      rw [TextureMap.keys_setFirst, hiff]
    | some t =>
      simp only [createForDoc, hd]
      rw [hiff]

theorem mem_keys_foldl_createForDoc (docs : List ImageDocument) (st : RendererState)
    (k : ImageId) :
    k ∈ (docs.foldl createForDoc st).textures.keys ↔
      k ∈ st.textures.keys ∨ referenced docs k := by
  induction docs generalizing st with
  | nil => simp [referenced]
  | cons d rest ih =>
    rw [List.foldl_cons, ih, mem_keys_createForDoc]
    simp only [referenced, List.mem_cons]
    constructor
    · rintro ((h | rfl) | ⟨d', hd', rfl⟩)
      · exact Or.inl h
      · exact Or.inr ⟨d, Or.inl rfl, rfl⟩
      · exact Or.inr ⟨d', Or.inr hd', rfl⟩
    · rintro (h | ⟨d', rfl | hd', rfl⟩)
      · exact Or.inl (Or.inl h)
      · exact Or.inl (Or.inr rfl)
      · exact Or.inr ⟨d', hd', rfl⟩

theorem updateImages_mem_keys (st : RendererState) (docs : List ImageDocument) (k : ImageId) :
    k ∈ (updateImages st docs).textures.keys ↔ referenced docs k := by
  have h1 : k ∈ (updateImages st docs).textures.keys ↔
      k ∈ (eraseStale st.textures docs).keys ∨ referenced docs k :=
    mem_keys_foldl_createForDoc docs _ k
  rw [h1, TextureMap.mem_keys_eraseStale]
  constructor
  · rintro (⟨_, h⟩ | h) <;> exact h
  · exact Or.inr

theorem createForDoc_eq_self (st : RendererState) (d : ImageDocument) (t : Texture)
    (h : st.textures.lookup d.imageId = some (some t)) : createForDoc st d = st := by
  simp [createForDoc, h]

theorem foldl_createForDoc_eq_self (docs : List ImageDocument) (st : RendererState)
    (h : ∀ d ∈ docs, ∃ t, st.textures.lookup d.imageId = some (some t)) :
    docs.foldl createForDoc st = st := by
  induction docs with
  | nil => rfl
  | cons d rest ih =>
    obtain ⟨t, ht⟩ := h d (List.mem_cons_self d rest)
    rw [List.foldl_cons, createForDoc_eq_self st d t ht]
    exact ih fun d' hd' => h d' (List.mem_cons_of_mem d hd')

theorem updateImages_idem_aux (st : RendererState) (docs : List ImageDocument) :
    updateImages (updateImages st docs) docs = updateImages st docs := by
  have hfilter : eraseStale (updateImages st docs).textures docs =
      (updateImages st docs).textures := by
    apply List.filter_eq_self.2
    intro e he
    refine (any_imageId_iff docs e.1).2 ?_
    exact (updateImages_mem_keys st docs e.1).1 (List.mem_map_of_mem Prod.fst he)
  calc updateImages (updateImages st docs) docs
      = docs.foldl createForDoc
          { updateImages st docs with
            textures := eraseStale (updateImages st docs).textures docs } := rfl
    _ = docs.foldl createForDoc (updateImages st docs) := by rw [hfilter]
    _ = updateImages st docs :=
        foldl_createForDoc_eq_self docs _ fun d hd => updateImages_lookup_mem st docs d hd

theorem paintStep_program_stable (st : RendererState) (p : Nat) (h : st.program = some p) :
    (paintStep st).1.program = some p ∧
      (paintStep st).1.programsCreated = st.programsCreated := by
  have hs : st.program.isSome = true := by rw [h]; rfl
  constructor <;> simp [paintStep, hs, h]

theorem paintN_program_stable (n : Nat) (st : RendererState) (p : Nat)
    (h : st.program = some p) :
    (paintN st n).program = some p ∧ (paintN st n).programsCreated = st.programsCreated := by
  induction n generalizing st with
  | zero => exact ⟨h, rfl⟩
  | succ n ih =>
    obtain ⟨h1, h2⟩ := paintStep_program_stable st p h
    obtain ⟨h3, h4⟩ := ih (paintStep st).1 h1
    exact ⟨h3, h4.trans h2⟩

theorem paintStep_first (st : RendererState) (h0 : st.program = none) :
    (paintStep st).1.program = some st.programsCreated ∧
      (paintStep st).1.programsCreated = st.programsCreated + 1 := by
  have hs : st.program.isSome = false := by rw [h0]; rfl
  constructor <;> simp [paintStep, hs]

theorem paintStep_textures_of_hit (st : RendererState) (v : Option Texture)
    (h : st.textures.lookup st.current = some v) :
    (paintStep st).1.textures = st.textures ∧ (paintStep st).2 = v := by
  cases hs : st.program.isSome <;>
    constructor <;> simp [paintStep, paintAccess, hs, h]

/-! Concrete fixtures used by witnesses and counterexamples. -/

/-- A small 3-channel image. -/
def img0 : Image :=
  { width := 4, height := 2, channels := 3 }

/-- A 5-channel image (channel count outside the documented set). -/
def img5 : Image :=
  { width := 2, height := 2, channels := 5 }

/-- A document whose image identity is 7. -/
def doc0 : ImageDocument :=
  { imageId := 7, image := img0 }

/-- A freshly constructed renderer looking at image identity 7. -/
def renderer0 : RendererState :=
  { program := none, programsCreated := 0, textures := [], nextTexId := 0, current := 7 }

/-- A renderer whose current image has no cache entry. -/
def missState : RendererState :=
  { program := some 0, programsCreated := 1, textures := [], nextTexId := 0, current := 3 }

/-- A renderer whose current image has a cache entry. -/
def hitState : RendererState :=
  { program := some 0, programsCreated := 1,
    textures := [(3, some (createTexture img0 0))], nextTexId := 1, current := 3 }

/-- Display settings with gamma 2. -/
def settings2 : Settings :=
  { position := (0, 0), scale := 1, gamma := 2 }

/-! The claims. -/

/-- C1: after `updateImages(docs)` returns, the key set of the renderer's
texture map equals exactly the set of image identities referenced by some
document in `docs`: every referenced image has a cache entry and every
unreferenced image's entry has been removed. -/
theorem updateImages_cache_keys (st : RendererState) (docs : List ImageDocument)
    (k : ImageId) :
    k ∈ (updateImages st docs).textures.keys ↔ referenced docs k :=
  updateImages_mem_keys st docs k

theorem updateImages_cache_keys_witness :
    7 ∈ (updateImages renderer0 [doc0]).textures.keys :=
  (updateImages_cache_keys renderer0 [doc0] 7).2 ⟨doc0, List.mem_singleton.2 rfl, rfl⟩

/-- C2 counterexample: when the current image has no cache entry, `paint`'s
`textures_[current_]` access default-inserts a (null) entry, so the backing
map is not left unchanged by every paint invocation on every renderer state. -/
theorem paintStep_mutates_on_miss :
    (paintStep missState).1.textures ≠ missState.textures := by decide

/-- C2 (amended): provided the current image has a cache entry, `paint` leaves
the texture cache's backing map unchanged (same key set, same texture
objects); only `updateImages` mutates it. -/
theorem paintStep_preserves_textures (st : RendererState)
    (h : (st.textures.lookup st.current).isSome = true) :
    (paintStep st).1.textures = st.textures := by
  obtain ⟨v, hv⟩ := Option.isSome_iff_exists.1 h
  exact (paintStep_textures_of_hit st v hv).1

theorem paintStep_preserves_textures_witness :
    (paintStep hitState).1.textures = hitState.textures :=
  paintStep_preserves_textures hitState (by decide)

/-- C3: `updateImages` is idempotent with respect to uploads: a second
consecutive call with the same document list leaves the whole renderer state
unchanged (in particular the texture-allocation counter does not advance, so
no texture is created or uploaded), and each document's image is bound to the
identical texture object after the second call. -/
theorem updateImages_idempotent (st : RendererState) (docs : List ImageDocument) :
    updateImages (updateImages st docs) docs = updateImages st docs ∧
      (updateImages (updateImages st docs) docs).nextTexId =
        (updateImages st docs).nextTexId ∧
      ∀ d ∈ docs,
        (updateImages (updateImages st docs) docs).textures.lookup d.imageId =
          (updateImages st docs).textures.lookup d.imageId := by
  have h := updateImages_idem_aux st docs
  exact ⟨h, by rw [h], fun d _ => by rw [h]⟩

theorem updateImages_idempotent_witness :
    (updateImages (updateImages renderer0 [doc0]) [doc0]).textures.lookup 7 =
      (updateImages renderer0 [doc0]).textures.lookup 7 :=
  (updateImages_idempotent renderer0 [doc0]).2.2 doc0 (List.mem_singleton.2 rfl)

/-- C4: `texturePosition(regionSize, imageSize, pan)` equals the spec formula
`((regionSize - imageSize)/2 + (-pan.x, pan.y)) / regionSize` (horizontal pan
negated, vertical not), and for `pan = (0, 0)` it equals
`(regionSize - imageSize) / (2 * regionSize)`. -/
theorem texturePosition_spec (regionSize imageSize pan : ℚ × ℚ) :
    texturePosition regionSize imageSize pan = specTexturePosition regionSize imageSize pan ∧
      texturePosition regionSize imageSize (0, 0) =
        ((regionSize.1 - imageSize.1) / (2 * regionSize.1),
          (regionSize.2 - imageSize.2) / (2 * regionSize.2)) := by
  refine ⟨rfl, ?_⟩
  simp only [texturePosition, Prod.mk.injEq]
  constructor
  · rw [neg_zero, add_zero, div_div]
  · rw [add_zero, div_div]

/-- C5: `textureScale(regionSize, imageSize)` equals `imageSize / regionSize`
componentwise; the image size `paint` feeds it is
`(imageWidth * settings.scale, imageHeight * settings.scale)`; and for a
region of 800x600 and an image of 400x600 at scale 1 the result is
`(1/2, 1)`. -/
theorem textureScale_spec (regionSize imageSize : ℚ × ℚ) (image : Image) (s : Settings) :
    textureScale regionSize imageSize = specTextureScale regionSize imageSize ∧
      (paintUniforms regionSize image s).scale =
        textureScale regionSize
          ((image.width : ℚ) * s.scale, (image.height : ℚ) * s.scale) ∧
      (paintUniforms (800, 600) { width := 400, height := 600, channels := 3 }
          { position := (0, 0), scale := 1, gamma := 1 }).scale = (1 / 2, 1) := by
  refine ⟨rfl, rfl, ?_⟩
  norm_num [paintUniforms, textureScale, Prod.ext_iff]

/-- C6: for positive `settings.gamma`, the gamma uniform `paint` passes to the
shader equals `1 / settings.gamma`; in particular it is `1/2` for gamma 2 and
`1` for gamma 1. -/
theorem gamma_uniform_spec (regionSize : ℚ × ℚ) (image : Image) (s : Settings)
    (_hpos : 0 < s.gamma) :
    (paintUniforms regionSize image s).gamma = 1 / s.gamma ∧
      (s.gamma = 2 → (paintUniforms regionSize image s).gamma = 1 / 2) ∧
      (s.gamma = 1 → (paintUniforms regionSize image s).gamma = 1) := by
  refine ⟨rfl, fun h2 => ?_, fun h1 => ?_⟩
  · show 1 / s.gamma = 1 / 2
    rw [h2]
  · show 1 / s.gamma = 1
    rw [h1, one_div_one]

theorem gamma_uniform_spec_witness :
    (paintUniforms (800, 600) img0 settings2).gamma = 1 / 2 :=
  (gamma_uniform_spec (800, 600) img0 settings2 (by norm_num [settings2])).2.1 rfl

/-- C7: across every sequence of paint calls on one renderer that starts with
no program (the freshly constructed state), the shader program is created
exactly once, during the first paint call, and every later paint call leaves
the same program object in place. -/
theorem program_compiled_once (st : RendererState) (n : Nat)
    (h0 : st.program = none) (h1 : st.programsCreated = 0) (hn : 1 ≤ n) :
    (paintN st n).program = some 0 ∧ (paintN st n).programsCreated = 1 ∧
      (paintN st n).program = (paintN st 1).program := by
  obtain ⟨m, rfl⟩ : ∃ m, n = m + 1 := ⟨n - 1, (Nat.succ_pred_eq_of_pos hn).symm⟩
  obtain ⟨hp, hc⟩ := paintStep_first st h0
  rw [h1] at hp hc
  obtain ⟨hmp, hmc⟩ := paintN_program_stable m (paintStep st).1 0 hp
  have hone : (paintN st 1).program = some 0 := by
    show (paintN (paintStep st).1 0).program = some 0
    exact hp
  refine ⟨?_, ?_, ?_⟩
  · show (paintN (paintStep st).1 m).program = some 0
    exact hmp
  · show (paintN (paintStep st).1 m).programsCreated = 1
    rw [hmc, hc]
  · show (paintN (paintStep st).1 m).program = (paintN st 1).program
    rw [hmp, hone]

theorem program_compiled_once_witness :
    (paintN renderer0 3).program = some 0 ∧ (paintN renderer0 3).programsCreated = 1 ∧
      (paintN renderer0 3).program = (paintN renderer0 1).program :=
  program_compiled_once renderer0 3 rfl rfl (by decide)

/-- C8: if `updateImages` was called with a document list referencing the
current image, `paint`'s lookup of the current image finds a non-null
texture: the dereference in `paint` never hits a missing or null entry. -/
theorem paint_lookup_hit (st : RendererState) (docs : List ImageDocument)
    (d : ImageDocument) (hd : d ∈ docs) :
    ∃ t, (paintStep (setCurrent (updateImages st docs) d.imageId)).2 = some t := by
  obtain ⟨t, ht⟩ := updateImages_lookup_mem st docs d hd
  refine ⟨t, ?_⟩
  have hcur : (setCurrent (updateImages st docs) d.imageId).textures.lookup
      (setCurrent (updateImages st docs) d.imageId).current = some (some t) := ht
  exact (paintStep_textures_of_hit _ _ hcur).2

theorem paint_lookup_hit_witness :
    ∃ t, (paintStep (setCurrent (updateImages renderer0 [doc0]) doc0.imageId)).2 = some t :=
  paint_lookup_hit renderer0 [doc0] doc0 (List.mem_singleton.2 rfl)

/-- C9: the fragment stage samples the bound texture at
`(coords - position) / scale`, raises the sampled RGB channels channel-wise to
the power of the gamma uniform, leaves alpha untouched, and outputs the
result; the vertex stage's `coords = vertices * 0.5 + 0.5` is the affine remap
from clip-space `[-1, 1]` to the unit interval `[0, 1]`. -/
theorem shader_spec (pw : ℚ → ℚ → ℚ) (sample : ℚ × ℚ → RGBA)
    (position scale : ℚ × ℚ) (gamma : ℚ) (coords vertices : ℚ × ℚ) :
    fragmentMain pw sample position scale gamma coords =
        specFragmentOutput pw sample position scale gamma coords ∧
      vertexCoords vertices = specVertexCoords vertices := by
  refine ⟨rfl, ?_⟩
  simp only [vertexCoords, specVertexCoords, Prod.mk.injEq]
  constructor <;> ring

/-- C10: for every image whose channel count is not exactly 3 (including
counts outside the documented set), `format` returns the RGBA texture format
and `pixelFormat` the RGBA pixel format; the RGB variants are chosen only for
a channel count of exactly 3. -/
theorem format_rgba_unless_three (image : Image) :
    (image.channels ≠ 3 →
        format image = TextureFormat.RGBAFormat ∧ pixelFormat image = PixelFormat.RGBA) ∧
      (format image = TextureFormat.RGBFormat → image.channels = 3) ∧
      (pixelFormat image = PixelFormat.RGB → image.channels = 3) := by
  by_cases h : image.channels = 3 <;> simp [format, pixelFormat, h]

theorem format_rgba_unless_three_witness :
    format img5 = TextureFormat.RGBAFormat ∧ pixelFormat img5 = PixelFormat.RGBA :=
  (format_rgba_unless_three img5).1 (by decide)

end Hdrv
